import Mathlib

/-!
Shallow embedding of the medA2A implementation (tool-protocol client/manager,
OMOP world model / schema knowledge base, SQL query-repair loop, and the
planning orchestrator), together with theorems settling the specification
claims about it.  Each definition mirrors the corresponding Python function
in `src/med_a2a_omop`; side effects are made explicit by threading state,
LLM calls and the tool server are abstracted as oracles, and Python `dict`s /
`set`s are modelled as association lists / duplicate-free lists in insertion
order.  Wall-clock timestamps are omitted (no claim observes them).
-/

namespace MedA2A

/-! ## Basic string helpers (Python `in`, `str.split`, `str.join`, ...) -/

/-- Test that `pat` occurs as a contiguous sublist of `l`. -/
def containsSub : List Char → List Char → Bool
  | [], pat => pat.isEmpty
  | x :: tl, pat => pat.isPrefixOf (x :: tl) || containsSub tl pat

/-- Python substring test `pat in h`. -/
def containsStr (h pat : String) : Bool :=
  containsSub h.data pat.data

/-- Python `str.lower()` (character-wise, over the string data). -/
def strLower (s : String) : String := String.mk (s.data.map Char.toLower)

/-- Python `str.upper()` (character-wise, over the string data). -/
def strUpper (s : String) : String := String.mk (s.data.map Char.toUpper)

/-- Trim whitespace from both ends of a character list. -/
def trimBoth (l : List Char) : List Char :=
  ((l.dropWhile Char.isWhitespace).reverse.dropWhile Char.isWhitespace).reverse

/-- Python `str.strip()`. -/
def trimStr (s : String) : String := String.mk (trimBoth s.data)

/-- Python `set.add` on a set modelled as a duplicate-free list in
insertion order. -/
def insertNew (l : List String) (x : String) : List String :=
  if x ∈ l then l else l ++ [x]

/-- First-match association-list lookup (Python `dict` access). -/
def lookupA {α : Type} : List (String × α) → String → Option α
  | [], _ => none
  | p :: rest, key => if p.1 = key then some p.2 else lookupA rest key

/-- Python `sep.join(parts)`. -/
def joinWith (sep : String) : List String → String
  | [] => ""
  | [x] => x
  | x :: y :: rest => x ++ sep ++ joinWith sep (y :: rest)

/-- Split a list at the first occurrence of `c`; `none` when `c` is absent
(Python `s.split(c, 1)` yielding one part). -/
def splitAtFirst (c : Char) : List Char → Option (List Char × List Char)
  | [] => none
  | x :: xs =>
    if x = c then some ([], xs)
    else (splitAtFirst c xs).map (fun p => (x :: p.1, p.2))

/-! ## ToolClient / ToolRegistry (`integrations/mcp_official.py`) -/

/-- One item of the `content` list of a tool-call response: its `type` tag and the
payload reached by `getattr(c, c.type)` (for a `"text"` item, the text). -/
structure ContentItem where
  type : String
  data : String
deriving DecidableEq, Repr

/-- The protocol-level result object returned by `session.call_tool`. -/
structure CallToolResult where
  content : List ContentItem
deriving DecidableEq, Repr

/-- Observable state of one `MCPClient`: whether `self.session` is set and
the discovered tool names (`self.tools` keys, insertion order). -/
structure MCPClientState where
  server_name : String
  session : Bool
  tools : List String
deriving DecidableEq, Repr

/-- The value `MCPClient.call_tool` hands back to its caller. -/
inductive ToolValue where
  /-- single `"text"` content item, returned unwrapped -/
  | text (s : String)
  /-- the `[{"type": c.type, "data": getattr(c, c.type)} for c in content]` list -/
  | items (l : List (String × String))
  /-- the raw protocol result object, returned when `content` is empty -/
  | raw (r : CallToolResult)
deriving DecidableEq, Repr

/-- Outcome of `MCPClient.call_tool` (exceptions made explicit). -/
inductive CallToolOutcome where
  | notConnected (msg : String)
  | toolNotFound (msg : String)
  | value (v : ToolValue)
deriving DecidableEq, Repr

/-- Model of `MCPClient.call_tool` (mcp_official.py lines 164-184); the wire response
the session would produce is passed in as `result`. -/
def MCPClient.call_tool (st : MCPClientState) (tool_name : String)
    (result : CallToolResult) : CallToolOutcome :=
  if !st.session then
    .notConnected "Not connected to server"
  else if !(st.tools.contains tool_name) then
    .toolNotFound ("Tool \x27" ++ tool_name ++ "\x27 not found in " ++ st.server_name)
  else
    match result.content with
    | [] => .value (.raw result)
    | [c] =>
      if c.type = "text" then .value (.text c.data)
      else .value (.items [(c.type, c.data)])
    | cs => .value (.items (cs.map (fun c => (c.type, c.data))))

/-- Model of `MCPClient.disconnect` (lines 186-204): clears the session and the tool
set; errors are logged, never raised. -/
def MCPClient.disconnect (st : MCPClientState) : MCPClientState :=
  { st with session := false, tools := [] }

/-- Environment for one `MCPClient.connect` run: whether the subprocess
launch succeeds, whether `session.initialize()` succeeds, and the tool list
produced by `session.list_tools()` (`none` when discovery raises). -/
structure ConnectEnv where
  launch_ok : Bool
  init_ok : Bool
  discovered : Option (List String)
deriving DecidableEq, Repr

/-- Model of `MCPClient.connect` (lines 74-142) as a state transition; the returned
`Bool` is `true` when the call raises.  The session is created and entered
before `initialize`; an `initialize` failure runs `disconnect` and re-raises;
`_discover_tools` (lines 144-162) replaces the tool set wholesale on success
and, when `list_tools` raises, propagates without any cleanup. -/
def MCPClient.connect (st : MCPClientState) (env : ConnectEnv) :
    MCPClientState × Bool :=
  if !env.launch_ok then
    (st, true)
  else
    let st1 := { st with session := true }
    if !env.init_ok then
      (MCPClient.disconnect st1, true)
    else
      match env.discovered with
      | none => (st1, true)
      | some ts => ({ st1 with tools := ts }, false)

/-- Outcome of `MCPManager.call_tool`: the two usage errors, or delegation to
the `call_tool` of the named client. -/
inductive ManagerCallOutcome where
  | invalidFormat (msg : String)
  | serverNotConnected (msg : String)
  | delegated (server tool : String)
deriving DecidableEq, Repr

/-- Model of the `MCPManager.call_tool` routing (lines 294-308): split `tool_id` on the
first `:`; reject when no separator; reject when the server has no connected
client; otherwise delegate to that client.  `clients` is the key set of
`self.clients`. -/
def MCPManager.call_tool (clients : List String) (tool_id : String) :
    ManagerCallOutcome :=
  match splitAtFirst ':' tool_id.data with
  | none =>
    .invalidFormat
      ("Invalid tool_id format: \x27" ++ tool_id ++ "\x27. Use \x27server_name:tool_name\x27")
  | some (srv, tool) =>
    let server_name := String.mk srv
    let tool_name := String.mk tool
    if !(clients.contains server_name) then
      .serverNotConnected ("Server \x27" ++ server_name ++ "\x27 not connected")
    else
      .delegated server_name tool_name

theorem splitAtFirst_eq_none_of_not_mem (l : List Char) (h : ':' ∉ l) :
    splitAtFirst ':' l = none := by
  induction l with
  | nil => rfl
  | cons x xs ih =>
    simp only [List.mem_cons, not_or] at h
    simp [splitAtFirst, Ne.symm h.1, ih h.2]

/-! ## Error-message pattern matching

Models of the two `re` patterns used by the world model:
`does not have a column named "(\w+)"` and
`Table "(\w+)" does not have a column named "(\w+)"` (leftmost search,
greedy `\w+` runs followed by a literal `"`, as in CPython). -/

/-- Word-character test for the ASCII alphabet. -/
def wordChar (c : Char) : Bool := c.isAlphanum || c = '_'

/-- Split off the maximal leading run of word characters. -/
def takeWordRun : List Char → List Char × List Char
  | [] => ([], [])
  | c :: cs =>
    if wordChar c then
      let p := takeWordRun cs
      (c :: p.1, p.2)
    else ([], c :: cs)

/-- Drop a literal prefix, or fail. -/
def dropLit (pat l : List Char) : Option (List Char) :=
  if pat.isPrefixOf l then some (l.drop pat.length) else none

/-- Try `does not have a column named "(\w+)"` anchored at the head. -/
def matchMissingColAt (l : List Char) : Option String :=
  match dropLit "does not have a column named \"".data l with
  | none => none
  | some rest =>
    let p := takeWordRun rest
    match p.2 with
    | '"' :: _ => if p.1.isEmpty then none else some (String.mk p.1)
    | _ => none

/-- Leftmost search for the one-capture missing-column pattern. -/
def searchMissingCol : List Char → Option String
  | [] => none
  | x :: tl =>
    match matchMissingColAt (x :: tl) with
    | some c => some c
    | none => searchMissingCol tl

/-- Try `Table "(\w+)" does not have a column named "(\w+)"` anchored at the
head. -/
def matchTableColAt (l : List Char) : Option (String × String) :=
  match dropLit "Table \"".data l with
  | none => none
  | some r1 =>
    let p1 := takeWordRun r1
    if p1.1.isEmpty then none
    else
      match dropLit "\" does not have a column named \"".data p1.2 with
      | none => none
      | some r3 =>
        let p2 := takeWordRun r3
        match p2.2 with
        | '"' :: _ =>
          if p2.1.isEmpty then none else some (String.mk p1.1, String.mk p2.1)
        | _ => none

/-- Leftmost search for the two-capture table-and-column pattern. -/
def searchTableCol : List Char → Option (String × String)
  | [] => none
  | x :: tl =>
    match matchTableColAt (x :: tl) with
    | some c => some c
    | none => searchTableCol tl

/-! ## SchemaKnowledgeBase (`ComprehensiveOMOPWorldModel`) -/

/-- The entries of a `standard_columns` value consumed by the modelled
operations (the source dicts also carry `required`/`description`, which no
modelled operation reads). -/
structure OMOPColumnInfo where
  type : Option String
  fk_table : Option String
deriving DecidableEq, Repr

/-- Model of `OMOPTable`, restricted to the fields the modelled operations read or
write. -/
structure OMOPTable where
  name : String
  domain : String
  description : String
  standard_columns : List (String × OMOPColumnInfo)
  actual_columns : List (String × String)
  confirmed_missing_columns : List String
deriving DecidableEq, Repr

/-- Model of `OMOPDomain`, restricted to the consumed fields. -/
structure OMOPDomain where
  name : String
  description : String
  primary_table : String
  related_tables : List String
deriving DecidableEq, Repr

/-- Model of `OMOPQueryTemplate`; Python float `success_rate` is modelled over `ℚ`. -/
structure OMOPQueryTemplate where
  name : String
  description : String
  sql_template : String
  parameters : List String
  domains : List String
  success_rate : ℚ
  usage_count : Nat
  examples : List String
deriving DecidableEq, Repr

/-- A `query_info` record (timestamp omitted). -/
structure QueryInfo where
  sql : String
  success : Bool
  error : Option String
  pattern_type : String
deriving DecidableEq, Repr

/-- Mutable state of `ComprehensiveOMOPWorldModel`. -/
structure WorldModel where
  schemaPrefixStr : String
  omop_tables : List (String × OMOPTable)
  omop_domains : List (String × OMOPDomain)
  query_templates : List (String × OMOPQueryTemplate)
  successful_queries : List QueryInfo
  failed_queries : List QueryInfo
deriving DecidableEq, Repr

/-- Model of `_classify_query_pattern`. -/
def classify_query_pattern (sql : String) : String :=
  let sql_upper := strUpper sql
  if containsStr sql_upper "COUNT(" && containsStr sql_upper "DISTINCT" then
    "count_distinct_patients"
  else if containsStr sql_upper "COUNT(" then "count_records"
  else if containsStr sql_upper "JOIN" && containsStr sql_upper "CONDITION_OCCURRENCE" then
    "condition_analysis"
  else if containsStr sql_upper "JOIN" && containsStr sql_upper "DRUG_EXPOSURE" then
    "drug_analysis"
  else if containsStr sql_upper "JOIN" && containsStr sql_upper "MEASUREMENT" then
    "measurement_analysis"
  else "general_query"

/-- Model of `_sql_matches_template`. -/
def sql_matches_template (sql : String) (t : OMOPQueryTemplate) : Bool :=
  let sql_upper := strUpper sql
  let template_upper := strUpper t.sql_template
  let key_phrases := ["COUNT(DISTINCT", "JOIN", "WHERE"]
  let template_phrases := key_phrases.filter (fun p => containsStr template_upper p)
  template_phrases.all (fun p => containsStr sql_upper p)

/-- Model of `_learn_from_success`: bump counters of matching templates. -/
def learn_from_success (wm : WorldModel) (sql : String) : WorldModel :=
  { wm with
    query_templates := wm.query_templates.map (fun p =>
      if sql_matches_template sql p.2 then
        (p.1, { p.2 with
                success_rate := min 1 (p.2.success_rate + 1/10),
                usage_count := p.2.usage_count + 1,
                examples := p.2.examples ++ [sql] })
      else p) }

/-- Model of `_learn_from_failure`: on a missing-column error, add the column to the
confirmed-missing set of every table whose name contains the reported alias
(case-insensitively). -/
def learn_from_failure (wm : WorldModel) (error_message : String) : WorldModel :=
  if containsStr error_message "does not have a column named" then
    match searchTableCol error_message.data with
    | some cap =>
      let table_alias := cap.1
      let missing_column := cap.2
      { wm with
        omop_tables := wm.omop_tables.map (fun p =>
          if containsStr (strLower p.1) (strLower table_alias) then
            (p.1, { p.2 with
                    confirmed_missing_columns :=
                      insertNew p.2.confirmed_missing_columns missing_column })
          else p) }
    | none => wm
  else wm

/-- Model of `learn_from_query_execution` (the spec name `recordOutcome`). -/
def learn_from_query_execution (wm : WorldModel) (sql : String) (success : Bool)
    (error_message : Option String) : WorldModel :=
  let query_info : QueryInfo :=
    { sql := sql, success := success, error := error_message,
      pattern_type := classify_query_pattern sql }
  if success then
    learn_from_success
      { wm with successful_queries := wm.successful_queries ++ [query_info] } sql
  else
    let wm1 := { wm with failed_queries := wm.failed_queries ++ [query_info] }
    match error_message with
    | some e => learn_from_failure wm1 e
    | none => wm1

/-- One row of the information-schema discovery result. -/
structure DiscoveredColumn where
  table_name : Option String
  column_name : Option String
  data_type : Option String
deriving DecidableEq, Repr

/-- Python truthiness of an optional string. -/
def truthy : Option String → Bool
  | none => false
  | some s => !s.isEmpty

/-- Point update of one table in the `omop_tables` dict. -/
def updateTable (tables : List (String × OMOPTable)) (k : String)
    (f : OMOPTable → OMOPTable) : List (String × OMOPTable) :=
  tables.map (fun p => if p.1 = k then (p.1, f p.2) else p)

/-- Python `d[k] = v` on a dict modelled as an association list. -/
def setAssoc (l : List (String × String)) (k v : String) : List (String × String) :=
  if (lookupA l k).isSome then l.map (fun p => if p.1 = k then (k, v) else p)
  else l ++ [(k, v)]

/-- One row of the `update_schema_from_discovery` loop: the first row seen
for a table clears its `actual_columns` wholesale, then each row with a
truthy `data_type` inserts its column. -/
def discoveryStep (acc : WorldModel × List String) (row : DiscoveredColumn) :
    WorldModel × List String :=
  let wm := acc.1
  let tables_updated := acc.2
  let tn := row.table_name.getD ""
  let cn := row.column_name.getD ""
  let dt := row.data_type.getD ""
  if truthy row.table_name && truthy row.column_name
      && (lookupA wm.omop_tables tn).isSome then
    let clearTable := fun (t : OMOPTable) => { t with actual_columns := [] }
    let addCol := fun (t : OMOPTable) =>
      { t with actual_columns := setAssoc t.actual_columns cn dt }
    let acc1 :=
      if tables_updated.contains tn then (wm, tables_updated)
      else
        ({ wm with omop_tables := updateTable wm.omop_tables tn clearTable },
         tables_updated ++ [tn])
    let wm1 := acc1.1
    if truthy row.data_type then
      ({ wm1 with omop_tables := updateTable wm1.omop_tables tn addCol }, acc1.2)
    else acc1
  else (wm, tables_updated)

/-- Model of `update_schema_from_discovery`. -/
def update_schema_from_discovery (wm : WorldModel)
    (discovered_columns : List DiscoveredColumn) : WorldModel :=
  (discovered_columns.foldl discoveryStep (wm, [])).1

/-- A `failed_sql_attempts` record. -/
structure AttemptRecord where
  sql : String
  error : String
  attempt_number : Nat
deriving DecidableEq, Repr

/-- One iteration of the `_extract_lessons_from_failures` loop; the Python
`set` accumulator is a duplicate-free list in insertion order. -/
def lessonStep (schemaPrefixStr : String) (lessons : List String)
    (attempt : AttemptRecord) : List String :=
  let error := attempt.error
  if containsStr error "does not have a column named" then
    let l1 := insertNew lessons "Verify column names exist in target tables before joining"
    match searchMissingCol error.data with
    | some missing_col =>
      insertNew l1 ("Column \x27" ++ missing_col ++ "\x27 does not exist - check OMOP standard schema")
    | none => l1
  else if containsStr error "Table with name" && containsStr error "does not exist" then
    insertNew lessons ("Always use \x27" ++ schemaPrefixStr ++ ".\x27 prefix for table references")
  else if containsStr error "domain_id" then
    insertNew lessons "Verify concept.domain_id matches the clinical domain being queried"
  else if containsStr error "standard_concept" then
    insertNew lessons "Use standard_concept = \x27S\x27 to filter for standard OMOP concepts"
  else lessons

/-- Model of `_extract_lessons_from_failures`. -/
def extract_lessons_from_failures (schemaPrefixStr : String)
    (failed_attempts : List AttemptRecord) : List String :=
  failed_attempts.foldl (lessonStep schemaPrefixStr) []

/-- Model of `_identify_relevant_domains`. -/
def identify_relevant_domains (question : String) : List String :=
  let question_lower := strLower question
  let hit := fun (ks : List String) => ks.any (fun k => containsStr question_lower k)
  let person_keywords := ["age", "birth", "year", "old", "demographics", "gender",
    "race", "ethnicity", "patient count", "how many patients"]
  let condition_keywords := ["condition", "diagnosis", "disease", "disorder",
    "hypertension", "diabetes", "cancer", "infection", "syndrome"]
  let drug_keywords := ["drug", "medication", "prescription", "medicine",
    "treatment", "therapy", "pill", "dose"]
  let measurement_keywords := ["lab", "test", "measurement", "result", "value",
    "level", "blood", "vital", "pressure", "glucose"]
  let observation_keywords := ["observation", "note", "finding", "history",
    "family history", "social"]
  let relevant_domains :=
    (if hit person_keywords then ["Person"] else []) ++
    (if hit condition_keywords then ["Condition"] else []) ++
    (if hit drug_keywords then ["Drug"] else []) ++
    (if hit measurement_keywords then ["Measurement"] else []) ++
    (if hit observation_keywords then ["Observation"] else [])
  if relevant_domains.isEmpty && hit ["patient", "person", "people", "individual"] then
    ["Person"]
  else relevant_domains

/-- Model of `_find_relevant_templates` (the dict insertion collapses to a filter; the
`question` argument is unused in the source body as well). -/
def find_relevant_templates (templates : List (String × OMOPQueryTemplate))
    (_question : String) (domains : List String) (concepts : List String)
    (query_type : String) : List (String × OMOPQueryTemplate) :=
  templates.filter (fun p =>
    domains.any (fun d => p.2.domains.contains d)
    || containsStr p.1 query_type
    || concepts.any (fun c => containsStr p.2.description c || containsStr p.1 c))

/-- The dictionary produced by `_extract_query_context` (keys read via
`.get` with defaults). -/
structure ExtractedContext where
  domains : Option (List String)
  concepts : Option (List String)
  query_type : Option String
deriving DecidableEq, Repr

/-- Rendering of the standard columns of one table. -/
def describeStdColumns (cols : List (String × OMOPColumnInfo)) : List String :=
  cols.map (fun p =>
    let col_name := p.1
    let ty := p.2.type.getD "UNKNOWN"
    let fk_info :=
      if truthy p.2.fk_table then
        let fk := p.2.fk_table.getD ""
        (" -> FK to " ++ fk)
      else ""
    ("    - " ++ col_name ++ " (" ++ ty ++ ")" ++ fk_info))

/-- Rendering of one table block in the context. -/
def describeTable (schemaPrefixStr : String) (table : OMOPTable) : List String :=
  let nm := table.name
  let dom := table.domain
  let desc := table.description
  [("\nTABLE: " ++ schemaPrefixStr ++ "." ++ nm ++ " (" ++ dom ++ " Domain)"), ("  Description: " ++ desc)] ++
  (if !table.actual_columns.isEmpty then
    "  Actual Columns (Discovered):" ::
      table.actual_columns.map (fun p =>
        let cn := p.1
        let ct := p.2
        ("    - " ++ cn ++ " (" ++ ct ++ ")"))
  else
    "  Standard Columns (Default):" :: describeStdColumns table.standard_columns)

/-- The per-domain table walk of `get_comprehensive_context` (the Python
`tables_to_describe` set and `seen_tables` set are duplicate-free lists in
insertion order). -/
def domainTableParts (wm : WorldModel) (relevant_domains : List String) : List String :=
  let inner := fun (acc2 : List String × List String) (table_name : String) =>
    if !acc2.2.contains table_name then
      match lookupA wm.omop_tables table_name with
      | some table =>
        (acc2.1 ++ describeTable wm.schemaPrefixStr table, acc2.2 ++ [table_name])
      | none => acc2
    else acc2
  let step := fun (acc : List String × List String) (domain_name : String) =>
    match lookupA wm.omop_domains domain_name with
    | none => acc
    | some domain =>
      let tables_to_describe :=
        domain.related_tables.foldl insertNew [domain.primary_table]
      tables_to_describe.foldl inner acc
  (relevant_domains.foldl step ([], [])).1

/-- Rendering of one suggested query template. -/
def describeTemplate (schemaPrefixStr : String) (p : String × OMOPQueryTemplate) :
    List String :=
  let t := p.2
  let formatted_sql := t.sql_template.replace "\x7bschema\x7d" schemaPrefixStr
  let nm := t.name
  let desc := t.description
  [("\n-- Pattern: " ++ nm ++ " --"), ("  Description: " ++ desc), "  SQL Template:"] ++
  (formatted_sql.splitOn "\n").map (fun line => ("    " ++ line))

/-- Model of `get_comprehensive_context` (the spec name `contextFor`). -/
def get_comprehensive_context (wm : WorldModel) (question : String)
    (extracted_context : ExtractedContext) (failed_attempts : List AttemptRecord) :
    String :=
  let relevant_domains :=
    let rd := extracted_context.domains.getD []
    if rd.isEmpty then identify_relevant_domains question else rd
  let domains_joined := joinWith ", " relevant_domains
  let qt := extracted_context.query_type.getD "unknown"
  let header_parts :=
    ["=== OMOP CDM v5.4 CONTEXT ===", ("Question: " ++ question),
     ("Identified Domains: " ++ domains_joined), ("Query Type: " ++ qt)]
  let schema_parts :=
    if !relevant_domains.isEmpty then
      "\n=== RELEVANT TABLES & SCHEMAS ===" :: domainTableParts wm relevant_domains
    else []
  let relevant_templates :=
    find_relevant_templates wm.query_templates question relevant_domains
      (extracted_context.concepts.getD []) (extracted_context.query_type.getD "")
  let template_parts :=
    if !relevant_templates.isEmpty then
      "\n=== SUGGESTED QUERY PATTERNS ===" ::
        relevant_templates.flatMap (describeTemplate wm.schemaPrefixStr)
    else []
  let lesson_parts :=
    if !failed_attempts.isEmpty then
      "\n=== LESSONS FROM PREVIOUS FAILURES ===" ::
        (extract_lessons_from_failures wm.schemaPrefixStr failed_attempts).map
          (fun lesson => ("  - " ++ lesson))
    else []
  joinWith "\n" (header_parts ++ schema_parts ++ template_parts ++ lesson_parts)

/-! ## QueryAgent (`OMOPDatabaseAgent`)

`reason` + the recursive `execute` retry loop.  The LLM (`ollama_reason`) and
the tool server (`call_mcp_tool`) are oracles: `gen` maps the current attempt
history (the only run-dependent prompt ingredient) to the raw LLM response,
and `exec n` classifies the result of the `n`-th execution call the way
`execute` does (`_is_mcp_error_result` / `_extract_error_from_result` /
`_parse_successful_result`). -/

/-- The shapes `_extract_sql_from_response` distinguishes in the Ollama
response (each carrying the string the corresponding branch extracts). -/
inductive OllamaResponse where
  | withResponse (s : String)
  | withMessageContent (content : Option String)
  | withMessageStr (s : String)
  | withContent (s : String)
  | otherDict (s : String)
  | nonDict (s : String)
deriving DecidableEq, Repr

/-- The raw text the branch cascade of `_extract_sql_from_response` picks. -/
def rawTextOf : OllamaResponse → String
  | .withResponse s => s
  | .withMessageContent c => c.getD ""
  | .withMessageStr s => s
  | .withContent s => s
  | .otherDict s => s
  | .nonDict s => s

/-- Case-insensitive literal prefix test. -/
def isPrefixOfCI : List Char → List Char → Bool
  | [], _ => true
  | _ :: _, [] => false
  | a :: as, b :: bs => (a.toLower = b.toLower) && isPrefixOfCI as bs

/-- Drop a literal prefix case-insensitively, or fail. -/
def dropLitCI (pat l : List Char) : Option (List Char) :=
  if isPrefixOfCI pat l then some (l.drop pat.length) else none

/-- Split at the first occurrence of a closing ` ``` ` fence:
`(before, after)`. -/
def splitClose : List Char → Option (List Char × List Char)
  | [] => none
  | x :: tl =>
    match dropLit "```".data (x :: tl) with
    | some rest => some ([], rest)
    | none => (splitClose tl).map (fun p => (x :: p.1, p.2))

/-- Model of `re.findall` over the sql-fenced-block pattern (DOTALL, IGNORECASE). -/
def sqlBlocks : Nat → List Char → List String
  | 0, _ => []
  | _ + 1, [] => []
  | fuel + 1, x :: tl =>
    match dropLitCI "```sql".data (x :: tl) with
    | some rest =>
      match splitClose rest with
      | some p => String.mk (trimBoth p.1) :: sqlBlocks fuel p.2
      | none => []
    | none => sqlBlocks fuel tl

/-- Model of `re.findall` over the generic fenced-block pattern (DOTALL). -/
def codeBlocks : Nat → List Char → List String
  | 0, _ => []
  | _ + 1, [] => []
  | fuel + 1, x :: tl =>
    match dropLit "```".data (x :: tl) with
    | some rest =>
      match splitClose rest with
      | some p => String.mk (trimBoth p.1) :: codeBlocks fuel p.2
      | none => []
    | none => codeBlocks fuel tl

/-- Model of `_extract_sql_from_response` (lines 1105-1139): pick the raw text for
the response shape, strip it, and unwrap markdown code fences when present.
No SQL validation of any kind is performed. -/
def extract_sql_from_response (ollama_response : OllamaResponse) : String :=
  let sql_query := trimStr (rawTextOf ollama_response)
  if containsStr sql_query "```sql" then
    let sql_matches := sqlBlocks (sql_query.data.length + 1) sql_query.data
    match sql_matches.getLast? with
    | some m => trimStr m
    | none => sql_query
  else if containsStr sql_query "```" then
    let code_matches := codeBlocks (sql_query.data.length + 1) sql_query.data
    match code_matches.find? (fun m =>
        let match_upper := strUpper (trimStr m)
        ["SELECT", "FROM", "WHERE", "JOIN"].any
          (fun keyword => containsStr match_upper keyword)) with
    | some m => trimStr m
    | none => sql_query
  else sql_query

/-- The `call_mcp_tool` action `reason` produces (lines 978-986). -/
structure MCPAction where
  tool_id : String
  query : String
deriving DecidableEq, Repr

/-- The tail of `reason`: wrap the extracted SQL — whatever it is — into the
`Select_Query` tool call.  There is no branch that rejects the SQL. -/
def reason_action (ollama_response : OllamaResponse) : MCPAction :=
  { tool_id := "omop_db_server:Select_Query",
    query := extract_sql_from_response ollama_response }

/-- What `execute` observes about one tool call. -/
inductive ExecOutcome where
  | errorResult (error_message : String)
  | ok (actual_result : List (List (String × String)))
  | exception (msg : String)
deriving DecidableEq, Repr

/-- The agent state `on_message_send`/`execute` read and write: the
`mental_state.memory` keys (an absent `failed_sql_attempts` key is the empty
list — every read goes through `.get(..., [])`) and the owned world model. -/
structure AgentState where
  current_nl_query : Option String
  failed_sql_attempts : List AttemptRecord
  wm : WorldModel
deriving DecidableEq, Repr

/-- Final `ActionResult` of the retry loop. -/
inductive AgentResult where
  | success (generated_sql : String) (query_result : List (List (String × String)))
  | failure (error : String)
deriving DecidableEq, Repr

/-- The `max_attempts` ceiling (omop_database_agent.py line 1178). -/
def max_attempts : Nat := 5

/-- The mutually recursive `reason`/`execute` loop (lines 942-986 and
1141-1213), returning the final state, the returned `ActionResult`, and the
trace of SQL strings sent to the tool server, in order. -/
def runExecute (st : AgentState) (gen : List AttemptRecord → OllamaResponse)
    (exec : Nat → ExecOutcome) : AgentState × AgentResult × List String :=
  let sql := extract_sql_from_response (gen st.failed_sql_attempts)
  match exec st.failed_sql_attempts.length with
  | .exception msg =>
    (st, .failure ("MCP Tool call failed: " ++ msg), [sql])
  | .ok actual_result =>
    let st1 := { st with
                 failed_sql_attempts := [],
                 wm := learn_from_query_execution st.wm sql true none }
    (st1, .success sql actual_result, [sql])
  | .errorResult error_message =>
    let wm1 := learn_from_query_execution st.wm sql false (some error_message)
    let attempts1 := st.failed_sql_attempts ++
      [{ sql := sql, error := error_message,
         attempt_number := st.failed_sql_attempts.length + 1 }]
    let st1 := { st with wm := wm1, failed_sql_attempts := attempts1 }
    if attempts1.length ≥ max_attempts then
      (st1,
       .failure
         ("Failed to generate valid SQL after " ++ toString max_attempts ++ " attempts. Last error: " ++ error_message),
       [sql])
    else
      let r := runExecute st1 gen exec
      (r.1, r.2.1, sql :: r.2.2)
termination_by max_attempts - st.failed_sql_attempts.length
decreasing_by
  simp only [attempts1, max_attempts, List.length_append, List.length_cons,
    List.length_nil] at *
  omega

/-- The state mutation `on_message_send` performs before `reason`:
`perceive` + `learn` only record the question (lines 934-940, 1295-1299);
nothing touches `failed_sql_attempts`. -/
def learnQuestion (st : AgentState) (question : String) : AgentState :=
  { st with current_nl_query := some question }

/-- Model of `on_message_send` for a well-formed `OMOPQueryRequest`: record the
question, then run the `reason`/`execute` loop. -/
def on_message_send (st : AgentState) (question : String)
    (gen : List AttemptRecord → OllamaResponse) (exec : Nat → ExecOutcome) :
    AgentState × AgentResult × List String :=
  runExecute (learnQuestion st question) gen exec

/-! ## Orchestrator (`agents/orchestrator_agent.py`)

The planner LLM, the synthesis LLM and the remote QueryAgent are oracles:
`planOracle` is the parsed JSON plan (`none` when no valid list is found),
`delegate` maps a sub-question to the `ActionResult` of
`delegate_to_omop_agent`, and `synth` is the synthesized summary.  The
`mental_state.memory` mirror of the world model is refreshed by `learn`
before every `reason`, so the world model alone carries the state. -/

/-- Model of `OMOPQueryResponse` (models/a2a_messages.py). -/
structure OMOPQueryResponse where
  generated_sql : String
  query_result : List (List (String × String))
deriving DecidableEq, Repr

/-- One entry of `executed_steps`. -/
structure OrchStep where
  sub_question : String
  result : OMOPQueryResponse
deriving DecidableEq, Repr

/-- Model of the `OrchestratorWorldModel` state. -/
structure OrchestratorWorldModel where
  original_query : Option String
  plan : Option (List String)
  executed_steps : List OrchStep
deriving DecidableEq, Repr

/-- The observation kinds `perceive` distinguishes (a string, a dict with a
`generated_sql` key, anything else). -/
inductive OrchObservation where
  | user_question (q : String)
  | omop_agent_response (r : OMOPQueryResponse)
  | unknown
deriving DecidableEq, Repr

/-- Model of `OrchestratorWorldModel.update` (orchestrator_agent.py lines 27-40). -/
def OrchestratorWorldModel.update (wm : OrchestratorWorldModel)
    (obs : OrchObservation) : OrchestratorWorldModel :=
  match obs with
  | .user_question q =>
    { original_query := some q, plan := none, executed_steps := [] }
  | .omop_agent_response r =>
    match wm.plan with
    | some (x :: rest) =>
      { wm with
        executed_steps := wm.executed_steps ++ [{ sub_question := x, result := r }],
        plan := some rest }
    | _ =>
      { wm with
        executed_steps :=
          wm.executed_steps ++ [{ sub_question := "Unknown sub-question", result := r }] }
  | .unknown => wm

/-- Actions `OrchestratorAgent.reason` can produce. -/
inductive OrchAction where
  | errorA (message : String)
  | plan_generated (plan : List String)
  | delegate_to_omop_agent (question : String)
  | final_answer (summary : String)
deriving DecidableEq, Repr

/-- Model of `OrchestratorAgent.reason` (lines 127-162); `_generate_plan` writes the
parsed plan into the world model before returning, hence the state in the
result. -/
def orchReason (wm : OrchestratorWorldModel) (planOracle : Option (List String))
    (synth : String) : OrchestratorWorldModel × OrchAction :=
  match wm.original_query with
  | none => (wm, .errorA "No user query found.")
  | some _ =>
    if wm.plan.isNone && wm.executed_steps.isEmpty then
      match planOracle with
      | some plan => ({ wm with plan := some plan }, .plan_generated plan)
      | none => (wm, .errorA "Failed to generate a valid plan.")
    else
      match wm.plan with
      | some (x :: _) => (wm, .delegate_to_omop_agent x)
      | some [] =>
        if !wm.executed_steps.isEmpty then (wm, .final_answer synth)
        else (wm, .errorA "Orchestrator is in an inconsistent state.")
      | none => (wm, .errorA "Orchestrator is in an inconsistent state.")

/-- Observable events of one orchestration run: a sub-question handed to the
QueryAgent, and a step result recorded into `executed_steps`. -/
inductive OrchEvent where
  | delegated (q : String)
  | recorded (q : String)
deriving DecidableEq, Repr

/-- Final outcome of `process_query`. -/
inductive OrchOutcome where
  | answered (summary : String)
  | failed (error : String)
deriving DecidableEq, Repr

/-- The `process_query` control loop (lines 410-443): reason, stop on final
answer or error, execute, stop on execution failure, perceive + learn, loop.
Returns the final world model, the outcome, and the ordered event trace. -/
def orchLoop (planOracle : Option (List String))
    (delegate : String → Except String OMOPQueryResponse) (synth : String) :
    Nat → OrchestratorWorldModel →
    OrchestratorWorldModel × OrchOutcome × List OrchEvent
  | 0, wm => (wm, .failed "Agent exceeded maximum execution loops.", [])
  | fuel + 1, wm =>
    let ra := orchReason wm planOracle synth
    let wm1 := ra.1
    match ra.2 with
    | .final_answer summary => (wm1, .answered summary, [])
    | .errorA msg => (wm1, .failed msg, [])
    | .plan_generated _ =>
      orchLoop planOracle delegate synth fuel (wm1.update .unknown)
    | .delegate_to_omop_agent q =>
      match delegate q with
      | .error e => (wm1, .failed e, [.delegated q])
      | .ok r =>
        let recordedQ :=
          match wm1.plan with
          | some (x :: _) => x
          | _ => "Unknown sub-question"
        let wm2 := wm1.update (.omop_agent_response r)
        let rest := orchLoop planOracle delegate synth fuel wm2
        (rest.1, rest.2.1, .delegated q :: .recorded recordedQ :: rest.2.2)

/-- The `max_loops` ceiling (line 421). -/
def max_loops : Nat := 10

/-- Model of `process_query`: perceive + learn the question, then run the loop. -/
def process_query (question : String) (planOracle : Option (List String))
    (delegate : String → Except String OMOPQueryResponse) (synth : String) :
    OrchestratorWorldModel × OrchOutcome × List OrchEvent :=
  orchLoop planOracle delegate synth max_loops
    (OrchestratorWorldModel.update
      { original_query := none, plan := none, executed_steps := [] }
      (.user_question question))

/-! ## Claims about the tool-protocol client and registry -/

theorem String_mk_data (s : String) : String.mk s.data = s := rfl

/-- C4: routing of `ToolRegistry.call` (`MCPManager.call_tool`): an id with
no `:` separator always fails with the malformed-id error (no client is
consulted); an id whose server portion has no connected client fails with
the server-not-connected error; otherwise the call is delegated to that
invoke of that client with the tool portion. -/
theorem C4_tool_registry_call_routing (clients : List String) (tool_id : String) :
    (':' ∉ tool_id.data →
      MCPManager.call_tool clients tool_id =
        .invalidFormat ("Invalid tool_id format: \x27" ++ tool_id ++
          "\x27. Use \x27server_name:tool_name\x27")) ∧
    (∀ srv tool : String,
      splitAtFirst ':' tool_id.data = some (srv.data, tool.data) →
      (clients.contains srv = false →
        MCPManager.call_tool clients tool_id =
          .serverNotConnected ("Server \x27" ++ srv ++ "\x27 not connected")) ∧
      (clients.contains srv = true →
        MCPManager.call_tool clients tool_id = .delegated srv tool)) := by
  constructor
  · intro h
    unfold MCPManager.call_tool
    rw [splitAtFirst_eq_none_of_not_mem tool_id.data h]
  · intro srv tool h
    have e : MCPManager.call_tool clients tool_id =
        (if !(clients.contains srv) then
          ManagerCallOutcome.serverNotConnected
            ("Server \x27" ++ srv ++ "\x27 not connected")
        else .delegated srv tool) := by
      simp only [MCPManager.call_tool, h, String_mk_data]
    constructor
    · intro hc
      rw [e, hc]
      rfl
    · intro hc
      rw [e, hc]
      rfl

/-- Witness for C4 at concrete inputs. -/
theorem C4_witness :
    MCPManager.call_tool ["omop_db_server"] "SelectQuery" =
      .invalidFormat
        "Invalid tool_id format: \x27SelectQuery\x27. Use \x27server_name:tool_name\x27" ∧
    MCPManager.call_tool [] "omop_db_server:Select_Query" =
      .serverNotConnected "Server \x27omop_db_server\x27 not connected" ∧
    MCPManager.call_tool ["omop_db_server"] "omop_db_server:Select_Query" =
      .delegated "omop_db_server" "Select_Query" := by
  refine ⟨(C4_tool_registry_call_routing _ _).1 (by decide),
    ((C4_tool_registry_call_routing _ _).2 "omop_db_server" "Select_Query"
      (by decide)).1 (by decide),
    ((C4_tool_registry_call_routing _ _).2 "omop_db_server" "Select_Query"
      (by decide)).2 (by decide)⟩

/-- A connected-client fixture used by witnesses. -/
def sampleClient : MCPClientState :=
  { server_name := "omop_db_server", session := true, tools := ["Select_Query"] }

/-- C5: `ToolClient.invoke` (`MCPClient.call_tool`) on a connected client:
a tool name outside the discovered set fails with the unknown-tool error;
for a discovered tool, a response with exactly one content item of type
`text` is returned as the unwrapped text string, and a response with
several content items is returned as the list of all of them. -/
theorem C5_client_invoke (st : MCPClientState) (tool_name : String)
    (result : CallToolResult) (hconn : st.session = true) :
    (st.tools.contains tool_name = false →
      MCPClient.call_tool st tool_name result =
        .toolNotFound ("Tool \x27" ++ tool_name ++ "\x27 not found in " ++
          st.server_name)) ∧
    (st.tools.contains tool_name = true →
      (∀ s, result.content = [{ type := "text", data := s }] →
        MCPClient.call_tool st tool_name result = .value (.text s)) ∧
      (2 ≤ result.content.length →
        MCPClient.call_tool st tool_name result =
          .value (.items (result.content.map (fun c => (c.type, c.data)))))) := by
  constructor
  · intro hmiss
    unfold MCPClient.call_tool
    rw [hconn, hmiss]
    rfl
  · intro htool
    constructor
    · intro s hc
      unfold MCPClient.call_tool
      rw [hconn, htool, hc]
      rfl
    · intro hlen
      match hres : result.content with
      | [] => rw [hres] at hlen; simp at hlen
      | [c] => rw [hres] at hlen; simp at hlen
      | c1 :: c2 :: cs =>
        unfold MCPClient.call_tool
        rw [hconn, htool, hres]
        rfl

/-- Witness for C5 at concrete inputs. -/
theorem C5_witness :
    MCPClient.call_tool sampleClient "Nope" ⟨[]⟩ =
      .toolNotFound "Tool \x27Nope\x27 not found in omop_db_server" ∧
    MCPClient.call_tool sampleClient "Select_Query" ⟨[⟨"text", "42"⟩]⟩ =
      .value (.text "42") ∧
    MCPClient.call_tool sampleClient "Select_Query"
        ⟨[⟨"text", "a"⟩, ⟨"image", "b"⟩]⟩ =
      .value (.items [("text", "a"), ("image", "b")]) := by
  refine ⟨(C5_client_invoke sampleClient "Nope" ⟨[]⟩ rfl).1 (by decide),
    ((C5_client_invoke sampleClient "Select_Query" ⟨[⟨"text", "42"⟩]⟩ rfl).2
      (by decide)).1 "42" rfl,
    ((C5_client_invoke sampleClient "Select_Query"
        ⟨[⟨"text", "a"⟩, ⟨"image", "b"⟩]⟩ rfl).2 (by decide)).2 (by decide)⟩

/-- C10: when the response of the tool call has an empty content list,
`MCPClient.call_tool` returns the raw protocol result object — a third
return shape distinct from both the unwrapped text string and the
content-item list. -/
theorem C10_empty_content_returns_raw (st : MCPClientState) (tool_name : String)
    (result : CallToolResult) (hconn : st.session = true)
    (htool : st.tools.contains tool_name = true)
    (hempty : result.content = []) :
    MCPClient.call_tool st tool_name result = .value (.raw result) ∧
    (∀ s, ToolValue.raw result ≠ .text s) ∧
    (∀ l, ToolValue.raw result ≠ .items l) := by
  refine ⟨?_, ?_, ?_⟩
  · unfold MCPClient.call_tool
    rw [hconn, htool, hempty]
    rfl
  · intro s
    simp
  · intro l
    simp

/-- Witness for C10 at a concrete input. -/
theorem C10_witness :
    MCPClient.call_tool sampleClient "Select_Query" ⟨[]⟩ =
      .value (.raw ⟨[]⟩) := by
  exact (C10_empty_content_returns_raw sampleClient "Select_Query" ⟨[]⟩
    rfl (by decide) rfl).1

/-- C6 (counterexample): `connect` on a launched and initialized session
whose tool discovery fails raises, yet leaves `session` set — the client is
NOT left in the disconnected state, contradicting the claimed atomicity. -/
theorem C6_counterexample :
    (MCPClient.connect ⟨"omop_db_server", false, []⟩
      ⟨true, true, none⟩).2 = true ∧
    (MCPClient.connect ⟨"omop_db_server", false, []⟩
      ⟨true, true, none⟩).1.session = true := by
  exact ⟨rfl, rfl⟩

/-- C6 (amended): `connect` is atomic for the handshake stage only — an
`initialize` failure closes the session and leaves the client disconnected
(no session, empty tool set) — but a tool-discovery failure propagates with
the session still open (tools also untouched). -/
theorem C6_connect_partial_atomicity (st : MCPClientState) :
    (∀ d, MCPClient.connect st
        ⟨true, false, d⟩ =
      ({ st with session := false, tools := [] }, true)) ∧
    MCPClient.connect st ⟨true, true, none⟩ =
      ({ st with session := true }, true) := by
  exact ⟨fun d => rfl, rfl⟩

/-! ## Substring calculus for the context-assembly claims -/

theorem isPrefixOf_iff_exists {p l : List Char} :
    p.isPrefixOf l = true ↔ ∃ r, l = p ++ r := by
  induction p generalizing l with
  | nil => simp [List.isPrefixOf]
  | cons x xs ih =>
    cases l with
    | nil => simp [List.isPrefixOf]
    | cons y ys =>
      simp only [List.isPrefixOf, Bool.and_eq_true, beq_iff_eq, ih]
      constructor
      · rintro ⟨hxy, r, hr⟩
        exact ⟨r, by simp [hxy, hr]⟩
      · rintro ⟨r, hr⟩
        rw [List.cons_append] at hr
        injection hr with h1 h2
        exact ⟨h1.symm, r, h2⟩

theorem containsSub_iff {l pat : List Char} :
    containsSub l pat = true ↔ ∃ a b, l = a ++ (pat ++ b) := by
  induction l with
  | nil =>
    simp only [containsSub, List.isEmpty_iff]
    constructor
    · rintro rfl
      exact ⟨[], [], rfl⟩
    · rintro ⟨a, b, h⟩
      cases a <;> simp_all
  | cons x tl ih =>
    simp only [containsSub, Bool.or_eq_true, ih, isPrefixOf_iff_exists]
    constructor
    · rintro (⟨r, hr⟩ | ⟨a, b, hab⟩)
      · exact ⟨[], r, by simp [hr]⟩
      · exact ⟨x :: a, b, by simp [hab]⟩
    · rintro ⟨a, b, hab⟩
      cases a with
      | nil => exact Or.inl ⟨b, by simpa using hab⟩
      | cons a0 as =>
        rw [List.cons_append] at hab
        injection hab with h1 h2
        exact Or.inr ⟨as, b, h2⟩

theorem containsSub_self (l : List Char) : containsSub l l = true := by
  rw [containsSub_iff]
  exact ⟨[], [], by simp⟩

theorem containsSub_append_of_left {pat a : List Char} (b : List Char)
    (h : containsSub a pat = true) : containsSub (a ++ b) pat = true := by
  rw [containsSub_iff] at h ⊢
  obtain ⟨u, v, huv⟩ := h
  exact ⟨u, v ++ b, by simp [huv]⟩

theorem containsSub_append_of_right {pat b : List Char} (a : List Char)
    (h : containsSub b pat = true) : containsSub (a ++ b) pat = true := by
  rw [containsSub_iff] at h ⊢
  obtain ⟨u, v, huv⟩ := h
  exact ⟨a ++ u, v, by simp [huv]⟩

theorem containsSub_trans {a b c : List Char} (h1 : containsSub b c = true)
    (h2 : containsSub a b = true) : containsSub a c = true := by
  rw [containsSub_iff] at h1 h2 ⊢
  obtain ⟨u, v, rfl⟩ := h2
  obtain ⟨p, q, rfl⟩ := h1
  exact ⟨u ++ p, q ++ (v : List Char), by simp⟩

theorem containsSub_joinWith {p : String} (sep : String) {parts : List String}
    (hmem : p ∈ parts) :
    containsSub (joinWith sep parts).data p.data = true := by
  induction parts with
  | nil => cases hmem
  | cons x rest ih =>
    cases rest with
    | nil =>
      have hx : p = x := by simpa using hmem
      subst hx
      exact containsSub_self _
    | cons y rest2 =>
      rcases List.mem_cons.mp hmem with hx | hmem2
      · subst hx
        show containsSub (p ++ sep ++ joinWith sep (y :: rest2)).data p.data = true
        rw [String.data_append, String.data_append]
        exact containsSub_append_of_left _
          (containsSub_append_of_left _ (containsSub_self _))
      · show containsSub (x ++ sep ++ joinWith sep (y :: rest2)).data p.data = true
        rw [String.data_append]
        exact containsSub_append_of_right _ (ih hmem2)

/-! ## Claims about the SchemaKnowledgeBase -/

theorem mem_insertNew_self (l : List String) (x : String) : x ∈ insertNew l x := by
  unfold insertNew
  by_cases h : x ∈ l
  · rwa [if_pos h]
  · rw [if_neg h]
    simp

theorem mem_insertNew_of_mem {l : List String} {y : String} (x : String)
    (h : y ∈ l) : y ∈ insertNew l x := by
  unfold insertNew
  by_cases hx : x ∈ l
  · rwa [if_pos hx]
  · rw [if_neg hx]
    exact List.mem_append_left _ h

/-- Confirmed-missing set containment between two `omop_tables` maps: every
table remains present and keeps every confirmed-missing column. -/
def tablesMono (old new : List (String × OMOPTable)) : Prop :=
  ∀ k t, lookupA old k = some t →
    ∃ t', lookupA new k = some t' ∧
      ∀ c ∈ t.confirmed_missing_columns, c ∈ t'.confirmed_missing_columns

theorem tablesMono_refl (l : List (String × OMOPTable)) : tablesMono l l :=
  fun _ t h => ⟨t, h, fun _ hc => hc⟩

theorem tablesMono_trans {a b c : List (String × OMOPTable)}
    (h1 : tablesMono a b) (h2 : tablesMono b c) : tablesMono a c := by
  intro k t h
  obtain ⟨t1, hl1, hs1⟩ := h1 k t h
  obtain ⟨t2, hl2, hs2⟩ := h2 k t1 hl1
  exact ⟨t2, hl2, fun c hc => hs2 c (hs1 c hc)⟩

theorem tablesMono_map (l : List (String × OMOPTable))
    (f : String × OMOPTable → String × OMOPTable)
    (h1 : ∀ p, (f p).1 = p.1)
    (h2 : ∀ p, ∀ c ∈ p.2.confirmed_missing_columns,
      c ∈ (f p).2.confirmed_missing_columns) :
    tablesMono l (l.map f) := by
  induction l with
  | nil => intro _ t h; exact absurd h (by simp [lookupA])
  | cons hd tl ih =>
    intro k t h
    rw [lookupA] at h
    rw [List.map_cons, lookupA, h1 hd]
    by_cases hk : hd.1 = k
    · rw [if_pos hk] at h ⊢
      injection h with h
      subst h
      exact ⟨(f hd).2, rfl, h2 hd⟩
    · rw [if_neg hk] at h ⊢
      exact ih k t h

theorem tablesMono_updateTable (l : List (String × OMOPTable)) (k : String)
    (f : OMOPTable → OMOPTable)
    (hf : ∀ t, (f t).confirmed_missing_columns = t.confirmed_missing_columns) :
    tablesMono l (updateTable l k f) := by
  refine tablesMono_map l _ ?_ ?_
  · intro p
    dsimp only
    split
    · rfl
    · rfl
  · intro p c hc
    dsimp only
    split
    · rw [hf]
      exact hc
    · exact hc

theorem tablesMono_learn_from_failure (wm : WorldModel) (e : String) :
    tablesMono wm.omop_tables (learn_from_failure wm e).omop_tables := by
  unfold learn_from_failure
  by_cases hc : containsStr e "does not have a column named" = true
  · rw [if_pos hc]
    cases hst : searchTableCol e.data with
    | none => exact tablesMono_refl _
    | some cap =>
      refine tablesMono_map wm.omop_tables _ ?_ ?_
      · intro p
        dsimp only
        split
        · rfl
        · rfl
      · intro p c hcc
        dsimp only
        split
        · exact mem_insertNew_of_mem _ hcc
        · exact hcc
  · rw [if_neg hc]
    exact tablesMono_refl _

theorem tablesMono_learn (wm : WorldModel) (sql : String) (success : Bool)
    (err : Option String) :
    tablesMono wm.omop_tables
      (learn_from_query_execution wm sql success err).omop_tables := by
  unfold learn_from_query_execution
  dsimp only
  split
  · exact tablesMono_refl _
  · split
    · rename_i e
      exact tablesMono_learn_from_failure
        { wm with failed_queries := wm.failed_queries ++
            [{ sql := sql, success := success, error := some e,
               pattern_type := classify_query_pattern sql }] } e
    · exact tablesMono_refl _

theorem tablesMono_discoveryStep (acc : WorldModel × List String)
    (row : DiscoveredColumn) :
    tablesMono acc.1.omop_tables (discoveryStep acc row).1.omop_tables := by
  unfold discoveryStep
  dsimp only
  split_ifs
  all_goals
    first
      | exact tablesMono_refl _
      | exact tablesMono_updateTable acc.1.omop_tables (row.table_name.getD "")
          (fun t => { t with actual_columns := setAssoc t.actual_columns (row.column_name.getD "") (row.data_type.getD "") })
          (fun t => rfl)
      | exact tablesMono_updateTable acc.1.omop_tables (row.table_name.getD "")
          (fun t => { t with actual_columns := [] }) (fun t => rfl)
      | exact tablesMono_trans
          (tablesMono_updateTable acc.1.omop_tables (row.table_name.getD "")
            (fun t => { t with actual_columns := [] }) (fun t => rfl))
          (tablesMono_updateTable
            (updateTable acc.1.omop_tables (row.table_name.getD "")
              (fun t => { t with actual_columns := [] }))
            (row.table_name.getD "")
            (fun t => { t with actual_columns := setAssoc t.actual_columns (row.column_name.getD "") (row.data_type.getD "") })
            (fun t => rfl))

theorem tablesMono_update_schema (wm : WorldModel)
    (rows : List DiscoveredColumn) :
    tablesMono wm.omop_tables (update_schema_from_discovery wm rows).omop_tables := by
  unfold update_schema_from_discovery
  suffices h : ∀ acc : WorldModel × List String,
      tablesMono acc.1.omop_tables ((rows.foldl discoveryStep acc).1).omop_tables by
    exact h (wm, [])
  induction rows with
  | nil => intro acc; exact tablesMono_refl _
  | cons r rs ih =>
    intro acc
    rw [List.foldl_cons]
    exact tablesMono_trans (tablesMono_discoveryStep acc r) (ih _)

theorem lookupA_map_of_lookupA (l : List (String × OMOPTable))
    (f : String × OMOPTable → String × OMOPTable)
    (h1 : ∀ p, (f p).1 = p.1) {k : String} {t : OMOPTable}
    (h : lookupA l k = some t) :
    lookupA (l.map f) k = some (f (k, t)).2 := by
  induction l with
  | nil => simp [lookupA] at h
  | cons hd tl ih =>
    rw [lookupA] at h
    rw [List.map_cons, lookupA, h1 hd]
    by_cases hk : hd.1 = k
    · rw [if_pos hk] at h ⊢
      injection h with h
      subst h
      rw [← hk]
    · rw [if_neg hk] at h ⊢
      exact ih h

/-- C7: the confirmed-missing-columns set of a table grows monotonically for the
life of the process: `learn_from_query_execution` (the spec name
`recordOutcome`) on a failure whose error text matches the missing-column
shape adds that column to the set of every matching table, and no modelled
operation — in particular neither a subsequent successful query nor a schema
rediscovery — ever removes a column from the set. -/
theorem C7_confirmed_missing_monotone (wm : WorldModel) :
    (∀ sql success err,
      tablesMono wm.omop_tables
        (learn_from_query_execution wm sql success err).omop_tables) ∧
    (∀ rows,
      tablesMono wm.omop_tables
        (update_schema_from_discovery wm rows).omop_tables) ∧
    (∀ sql e als col k t,
      containsStr e "does not have a column named" = true →
      searchTableCol e.data = some (als, col) →
      lookupA wm.omop_tables k = some t →
      containsStr (strLower k) (strLower als) = true →
      ∃ t', lookupA (learn_from_query_execution wm sql false (some e)).omop_tables k
          = some t' ∧ col ∈ t'.confirmed_missing_columns) := by
  refine ⟨fun sql success err => tablesMono_learn wm sql success err,
    fun rows => tablesMono_update_schema wm rows, ?_⟩
  intro sql e als col k t hc hst hk hmatch
  show ∃ t', lookupA (learn_from_failure
      { wm with failed_queries := wm.failed_queries ++
          [{ sql := sql, success := false, error := some e,
             pattern_type := classify_query_pattern sql }] } e).omop_tables k
      = some t' ∧ col ∈ t'.confirmed_missing_columns
  unfold learn_from_failure
  rw [if_pos hc, hst]
  dsimp only
  have hl := lookupA_map_of_lookupA wm.omop_tables
    (fun p => if containsStr (strLower p.1) (strLower als) = true then (p.1, { p.2 with confirmed_missing_columns := insertNew p.2.confirmed_missing_columns col }) else p)
    (fun p => by dsimp only; split <;> rfl) hk
  dsimp only at hl
  rw [if_pos hmatch] at hl
  exact ⟨_, hl, mem_insertNew_self _ _⟩

/-- Fixture table for witnesses. -/
def tblFix : OMOPTable :=
  { name := "condition_occurrence", domain := "Condition",
    description := "Records of medical conditions/diagnoses",
    standard_columns := [], actual_columns := [],
    confirmed_missing_columns := [] }

/-- Fixture world model for witnesses. -/
def wmFix : WorldModel :=
  { schemaPrefixStr := "base",
    omop_tables := [("condition_occurrence", tblFix)],
    omop_domains := [], query_templates := [],
    successful_queries := [], failed_queries := [] }

/-- Fixture missing-column error text for witnesses. -/
def errFix : String :=
  "Binder Error: Table \"co\" does not have a column named \"foo\""

/-- Witness for C7 at concrete inputs. -/
theorem C7_witness :
    ∃ t', lookupA (learn_from_query_execution wmFix "SELECT 1" false
        (some errFix)).omop_tables "condition_occurrence" = some t' ∧
      "foo" ∈ t'.confirmed_missing_columns := by
  exact (C7_confirmed_missing_monotone wmFix).2.2 "SELECT 1" errFix "co" "foo"
    "condition_occurrence" tblFix (by decide) (by decide) (by decide) (by decide)

theorem mem_lessonStep_of_mem (sp : String) (att : AttemptRecord)
    {ls : List String} {x : String} (h : x ∈ ls) :
    x ∈ lessonStep sp ls att := by
  unfold lessonStep
  dsimp only
  split
  · split
    · exact mem_insertNew_of_mem _ (mem_insertNew_of_mem _ h)
    · exact mem_insertNew_of_mem _ h
  · split
    · exact mem_insertNew_of_mem _ h
    · split
      · exact mem_insertNew_of_mem _ h
      · split
        · exact mem_insertNew_of_mem _ h
        · exact h

theorem mem_foldl_lessonStep (sp : String) (l : List AttemptRecord) :
    ∀ acc x, x ∈ acc → x ∈ l.foldl (lessonStep sp) acc := by
  induction l with
  | nil => intro acc x h; exact h
  | cons a tl ih =>
    intro acc x h
    rw [List.foldl_cons]
    exact ih _ x (mem_lessonStep_of_mem sp a h)

theorem lesson_mem_foldl (sp : String) {attempts : List AttemptRecord}
    {a : AttemptRecord} {col : String}
    (hmem : a ∈ attempts)
    (hsub : containsStr a.error "does not have a column named" = true)
    (hcol : searchMissingCol a.error.data = some col) :
    ∀ acc, ("Column \x27" ++ col ++ "\x27 does not exist - check OMOP standard schema")
      ∈ attempts.foldl (lessonStep sp) acc := by
  induction attempts with
  | nil => cases hmem
  | cons hd tl ih =>
    intro acc
    rw [List.foldl_cons]
    rcases List.mem_cons.mp hmem with heq | htl
    · subst heq
      apply mem_foldl_lessonStep
      unfold lessonStep
      dsimp only
      rw [if_pos hsub, hcol]
      exact mem_insertNew_self _ _
    · exact ih htl _

theorem lesson_mem_of_attempt (sp : String) {attempts : List AttemptRecord}
    {a : AttemptRecord} {col : String}
    (hmem : a ∈ attempts)
    (hsub : containsStr a.error "does not have a column named" = true)
    (hcol : searchMissingCol a.error.data = some col) :
    ("Column \x27" ++ col ++ "\x27 does not exist - check OMOP standard schema")
      ∈ extract_lessons_from_failures sp attempts := by
  unfold extract_lessons_from_failures
  exact lesson_mem_foldl sp hmem hsub hcol []

theorem get_context_parts (wm : WorldModel) (question : String)
    (ctx : ExtractedContext) (attempts : List AttemptRecord)
    (hne : attempts ≠ []) :
    ∃ pre, get_comprehensive_context wm question ctx attempts =
      joinWith "\n" (pre ++ "\n=== LESSONS FROM PREVIOUS FAILURES ===" ::
        (extract_lessons_from_failures wm.schemaPrefixStr attempts).map
          (fun lesson => "  - " ++ lesson)) := by
  cases attempts with
  | nil => exact absurd rfl hne
  | cons a tl => exact ⟨_, rfl⟩

theorem lesson_in_context (wm : WorldModel) (question : String)
    (ctx : ExtractedContext) (attempts : List AttemptRecord) (L : String)
    (hL : L ∈ extract_lessons_from_failures wm.schemaPrefixStr attempts)
    (hne : attempts ≠ []) :
    containsStr (get_comprehensive_context wm question ctx attempts) L = true := by
  obtain ⟨pre, hctx⟩ := get_context_parts wm question ctx attempts hne
  rw [hctx]
  unfold containsStr
  have hpart : ("  - " ++ L) ∈ pre ++ "\n=== LESSONS FROM PREVIOUS FAILURES ===" ::
      (extract_lessons_from_failures wm.schemaPrefixStr attempts).map
        (fun lesson => "  - " ++ lesson) :=
    List.mem_append.mpr (Or.inr (List.mem_cons.mpr
      (Or.inr (List.mem_map.mpr ⟨L, hL, rfl⟩))))
  have h1 : containsSub ("  - " ++ L).data L.data := by
    rw [String.data_append]
    exact containsSub_append_of_right _ (containsSub_self _)
  exact containsSub_trans h1 (containsSub_joinWith "\n" hpart)

/-- C8: round-trip from `recordOutcome` to `contextFor`: after
`learn_from_query_execution` records a failure whose error text names a
missing column, a subsequent `get_comprehensive_context` call whose prior
failures include that attempt produces a context string containing the
lesson that mentions the captured column. -/
theorem C8_missing_column_round_trip (wm : WorldModel) (question sql : String)
    (ctx : ExtractedContext) (attempts : List AttemptRecord)
    (a : AttemptRecord) (col : String)
    (hmem : a ∈ attempts)
    (hsub : containsStr a.error "does not have a column named" = true)
    (hcol : searchMissingCol a.error.data = some col) :
    containsStr
      (get_comprehensive_context
        (learn_from_query_execution wm sql false (some a.error))
        question ctx attempts)
      ("Column \x27" ++ col ++ "\x27 does not exist - check OMOP standard schema")
      = true := by
  apply lesson_in_context
  · exact lesson_mem_of_attempt _ hmem hsub hcol
  · intro h0
    rw [h0] at hmem
    cases hmem

/-- Fixture attempt record for the C8 witness. -/
def attemptFix : AttemptRecord :=
  { sql := "SELECT x FROM base.condition_occurrence", error := errFix,
    attempt_number := 1 }

/-- Witness for C8 at concrete inputs. -/
theorem C8_witness :
    containsStr
      (get_comprehensive_context
        (learn_from_query_execution wmFix
          "SELECT x FROM base.condition_occurrence" false (some errFix))
        "How many patients have hypertension?"
        { domains := none, concepts := none, query_type := none }
        [attemptFix])
      ("Column \x27foo\x27 does not exist - check OMOP standard schema")
      = true := by
  exact C8_missing_column_round_trip wmFix
    "How many patients have hypertension?"
    "SELECT x FROM base.condition_occurrence"
    { domains := none, concepts := none, query_type := none }
    [attemptFix] attemptFix "foo" (by simp) (by decide) (by decide)

/-! ## Claims about the QueryAgent retry loop -/

theorem runExecute_trace_head (st : AgentState)
    (gen : List AttemptRecord → OllamaResponse) (exec : Nat → ExecOutcome) :
    (runExecute st gen exec).2.2.head? =
      some (extract_sql_from_response (gen st.failed_sql_attempts)) := by
  unfold runExecute
  dsimp only
  cases hx : exec st.failed_sql_attempts.length with
  | exception msg => rfl
  | ok r => rfl
  | errorResult msg =>
    dsimp only
    split
    · rfl
    · rfl

theorem runExecute_trace_bound : ∀ (n : Nat) (st : AgentState)
    (gen : List AttemptRecord → OllamaResponse) (exec : Nat → ExecOutcome),
    max_attempts - st.failed_sql_attempts.length ≤ n →
    ((runExecute st gen exec).2.2.length + st.failed_sql_attempts.length ≤ max_attempts
      ∨ (runExecute st gen exec).2.2.length = 1) := by
  intro n
  induction n with
  | zero =>
    intro st gen exec h
    unfold runExecute
    dsimp only
    cases hx : exec st.failed_sql_attempts.length with
    | exception msg => right; rfl
    | ok r => right; rfl
    | errorResult msg =>
      dsimp only
      split
      · right; rfl
      · rename_i hlt
        exfalso
        simp only [List.length_append, List.length_cons, List.length_nil,
          ge_iff_le, max_attempts, not_le] at hlt
        simp only [max_attempts] at h
        omega
  | succ n ih =>
    intro st gen exec h
    unfold runExecute
    dsimp only
    cases hx : exec st.failed_sql_attempts.length with
    | exception msg => right; rfl
    | ok r => right; rfl
    | errorResult msg =>
      dsimp only
      split
      · right; rfl
      · rename_i hlt
        simp only [List.length_append, List.length_cons, List.length_nil,
          ge_iff_le, max_attempts, not_le] at hlt
        have hrec := ih { st with
            wm := learn_from_query_execution st.wm
              (extract_sql_from_response (gen st.failed_sql_attempts)) false
              (some msg),
            failed_sql_attempts := st.failed_sql_attempts ++
              [{ sql := extract_sql_from_response (gen st.failed_sql_attempts),
                 error := msg,
                 attempt_number := st.failed_sql_attempts.length + 1 }] }
          gen exec
          (by
            simp only [List.length_append, List.length_cons, List.length_nil,
              max_attempts]
            simp only [max_attempts] at h
            omega)
        simp only [List.length_append, List.length_cons, List.length_nil,
          max_attempts] at hrec
        dsimp only
        simp only [List.length_cons, max_attempts]
        omega

theorem runExecute_all_fail : ∀ (k : Nat) (st : AgentState)
    (gen : List AttemptRecord → OllamaResponse) (exec : Nat → ExecOutcome)
    (e : Nat → String),
    st.failed_sql_attempts.length + (k + 1) = max_attempts →
    (∀ i, i < max_attempts → exec i = .errorResult (e i)) →
    (runExecute st gen exec).2.1 =
      .failure ("Failed to generate valid SQL after " ++ toString max_attempts ++
        " attempts. Last error: " ++ e 4) ∧
    (runExecute st gen exec).2.2.length = k + 1 := by
  intro k
  induction k with
  | zero =>
    intro st gen exec e hlen hall
    simp only [max_attempts] at hlen
    unfold runExecute
    dsimp only
    rw [hall st.failed_sql_attempts.length (by simp only [max_attempts]; omega)]
    dsimp only
    rw [if_pos (by
      simp only [List.length_append, List.length_cons, List.length_nil,
        ge_iff_le, max_attempts]
      omega)]
    refine ⟨?_, rfl⟩
    have h4 : st.failed_sql_attempts.length = 4 := by omega
    rw [h4]
  | succ k ih =>
    intro st gen exec e hlen hall
    simp only [max_attempts] at hlen
    unfold runExecute
    dsimp only
    rw [hall st.failed_sql_attempts.length (by simp only [max_attempts]; omega)]
    dsimp only
    rw [if_neg (by
      simp only [List.length_append, List.length_cons, List.length_nil,
        ge_iff_le, max_attempts, not_le]
      omega)]
    have hrec := ih { st with
        wm := learn_from_query_execution st.wm
          (extract_sql_from_response (gen st.failed_sql_attempts)) false
          (some (e st.failed_sql_attempts.length)),
        failed_sql_attempts := st.failed_sql_attempts ++
          [{ sql := extract_sql_from_response (gen st.failed_sql_attempts),
             error := e st.failed_sql_attempts.length,
             attempt_number := st.failed_sql_attempts.length + 1 }] }
      gen exec e
      (by
        simp only [List.length_append, List.length_cons, List.length_nil,
          max_attempts]
        omega)
      hall
    refine ⟨hrec.1, ?_⟩
    dsimp only
    simp only [List.length_cons, hrec.2]

/-- C1: for every question the QueryAgent issues at most `max_attempts = 5`
SQL execution calls (the trace of tool-server calls never exceeds 5,
whatever attempt history it starts from); entered fresh, after the 5th
consecutive failed execution it stops retrying and returns a failure whose
error message carries the error text of the 5th (last) attempt. -/
theorem C1_max_five_execution_calls (st : AgentState)
    (gen : List AttemptRecord → OllamaResponse) (exec : Nat → ExecOutcome)
    (e : Nat → String) :
    (runExecute st gen exec).2.2.length ≤ max_attempts ∧
    (st.failed_sql_attempts = [] →
      (∀ i, i < max_attempts → exec i = .errorResult (e i)) →
      (runExecute st gen exec).2.1 =
        .failure ("Failed to generate valid SQL after " ++ toString max_attempts ++
          " attempts. Last error: " ++ e 4) ∧
      (runExecute st gen exec).2.2.length = max_attempts) := by
  constructor
  · rcases runExecute_trace_bound max_attempts st gen exec (by omega) with h | h
    · omega
    · simp only [max_attempts] at *
      omega
  · intro hfresh hall
    have h := runExecute_all_fail 4 st gen exec e
      (by rw [hfresh]; rfl) hall
    exact ⟨h.1, by rw [h.2]; rfl⟩

/-- Fixture fresh agent state for witnesses. -/
def stFresh : AgentState :=
  { current_nl_query := some "How many patients are there?",
    failed_sql_attempts := [], wm := wmFix }

/-- Fixture generation oracle for witnesses. -/
def genW : List AttemptRecord → OllamaResponse := fun _ => .nonDict "SELECT 1"

/-- Fixture always-failing execution oracle for witnesses. -/
def execW : Nat → ExecOutcome := fun _ => .errorResult "boom"

/-- Witness for C1 at concrete oracles. -/
theorem C1_witness :
    (runExecute stFresh genW execW).2.2.length ≤ max_attempts ∧
    (runExecute stFresh genW execW).2.1 =
      .failure ("Failed to generate valid SQL after " ++ toString max_attempts ++
        " attempts. Last error: " ++ "boom") ∧
    (runExecute stFresh genW execW).2.2.length = max_attempts := by
  have h := C1_max_five_execution_calls stFresh genW execW (fun _ => "boom")
  exact ⟨h.1, (h.2 rfl (fun i _ => rfl)).1, (h.2 rfl (fun i _ => rfl)).2⟩

/-- One-shot exhaustion of `runExecute`: when the attempt history is already
at (or past) the ceiling minus one, a single failing execution call ends the
question with the max-attempts failure. -/
theorem runExecute_stop (st : AgentState)
    (gen : List AttemptRecord → OllamaResponse) (exec : Nat → ExecOutcome)
    (msg : String)
    (hx : exec st.failed_sql_attempts.length = .errorResult msg)
    (hlen : max_attempts ≤ st.failed_sql_attempts.length + 1) :
    runExecute st gen exec =
      ({ st with
          wm := learn_from_query_execution st.wm
            (extract_sql_from_response (gen st.failed_sql_attempts)) false
            (some msg),
          failed_sql_attempts := st.failed_sql_attempts ++
            [{ sql := extract_sql_from_response (gen st.failed_sql_attempts),
               error := msg,
               attempt_number := st.failed_sql_attempts.length + 1 }] },
       .failure ("Failed to generate valid SQL after " ++ toString max_attempts ++
         " attempts. Last error: " ++ msg),
       [extract_sql_from_response (gen st.failed_sql_attempts)]) := by
  unfold runExecute
  dsimp only
  rw [hx]
  dsimp only
  rw [if_pos (by
    simp only [List.length_append, List.length_cons, List.length_nil, ge_iff_le]
    omega)]

/-- Fixture: the attempt history left behind by a previous exhausted
question (five failed attempts). -/
def staleAttempts : List AttemptRecord :=
  [{ sql := "s1", error := "e1", attempt_number := 1 },
   { sql := "s2", error := "e2", attempt_number := 2 },
   { sql := "s3", error := "e3", attempt_number := 3 },
   { sql := "s4", error := "e4", attempt_number := 4 },
   { sql := "s5", error := "e5", attempt_number := 5 }]

/-- Fixture agent state entering a NEW question with the history of the previous
exhausted question still in memory. -/
def stStale : AgentState :=
  { current_nl_query := some "old question",
    failed_sql_attempts := staleAttempts, wm := wmFix }

/-- Fixture execution oracle failing with a fresh error text. -/
def execNew : Nat → ExecOutcome := fun _ => .errorResult "new error"

/-- C2 (evidence at the failing input): `on_message_send` does NOT clear the
attempt history carried over from a previous question — entry (`perceive` +
`learn`) leaves the five stale records in place, so the first generation of
the new question already sees them, and a single failed execution makes the
new question fail with "after 5 attempts" while the history grows to six
records, past the ceiling. -/
theorem C2_carryover_not_cleared :
    (learnQuestion stStale "new question").failed_sql_attempts = staleAttempts ∧
    (on_message_send stStale "new question" genW execNew).2.2.length = 1 ∧
    (on_message_send stStale "new question" genW execNew).2.1 =
      .failure ("Failed to generate valid SQL after " ++ toString max_attempts ++
        " attempts. Last error: " ++ "new error") ∧
    (on_message_send stStale "new question" genW execNew).1.failed_sql_attempts.length = 6 := by
  have hstop := runExecute_stop (learnQuestion stStale "new question") genW execNew
    "new error" rfl (by decide)
  refine ⟨rfl, ?_, ?_, ?_⟩
  · show (runExecute (learnQuestion stStale "new question") genW execNew).2.2.length = 1
    rw [hstop]
    rfl
  · show (runExecute (learnQuestion stStale "new question") genW execNew).2.1 =
      .failure ("Failed to generate valid SQL after " ++ toString max_attempts ++
        " attempts. Last error: " ++ "new error")
    rw [hstop]
  · show (runExecute (learnQuestion stStale "new question") genW execNew).1.failed_sql_attempts.length = 6
    rw [hstop]
    rfl

/-- C3 (counterexample): a generated statement that is not a single SELECT —
here a DROP plus a DELETE — is extracted verbatim and IS passed to the tool
server as the first execution call of the question; no validation gate
rejects it before execution. -/
theorem C3_counterexample :
    extract_sql_from_response (.nonDict "DROP TABLE person; DELETE FROM person") =
      "DROP TABLE person; DELETE FROM person" ∧
    (runExecute stFresh
        (fun _ => .nonDict "DROP TABLE person; DELETE FROM person")
        execNew).2.2.head? = some "DROP TABLE person; DELETE FROM person" ∧
    "SELECT".data.isPrefixOf "DROP TABLE person; DELETE FROM person".data = false := by
  refine ⟨by decide, ?_, by decide⟩
  rw [runExecute_trace_head]
  decide

/-- C3 (amended): the QueryAgent performs no pre-execution SQL validation:
`reason` wraps the extracted text — whatever it is — into the
`Select_Query` tool call, and the first SQL string sent to the tool server
in the `execute` loop is exactly that extraction output; a non-SELECT
generation is rejected only by the tool server itself, whose error then
consumes one attempt like any execution failure. -/
theorem C3_no_validation_gate (st : AgentState)
    (gen : List AttemptRecord → OllamaResponse) (exec : Nat → ExecOutcome) :
    (runExecute st gen exec).2.2.head? =
      some (extract_sql_from_response (gen st.failed_sql_attempts)) ∧
    (∀ resp, reason_action resp =
      { tool_id := "omop_db_server:Select_Query",
        query := extract_sql_from_response resp }) :=
  ⟨runExecute_trace_head st gen exec, fun _ => rfl⟩

/-! ## Claims about the Orchestrator -/

theorem orchReason_delegate (wm : OrchestratorWorldModel)
    (po : Option (List String)) (syn q x : String) (rest : List String)
    (hq : wm.original_query = some q) (hplan : wm.plan = some (x :: rest)) :
    orchReason wm po syn = (wm, .delegate_to_omop_agent x) := by
  unfold orchReason
  rw [hq, hplan]
  rfl

theorem orchReason_final (wm : OrchestratorWorldModel)
    (po : Option (List String)) (syn q : String) (s0 : OrchStep)
    (tl : List OrchStep)
    (hq : wm.original_query = some q) (hplan : wm.plan = some [])
    (hsteps : wm.executed_steps = s0 :: tl) :
    orchReason wm po syn = (wm, .final_answer syn) := by
  unfold orchReason
  rw [hq, hplan, hsteps]
  rfl

theorem orchReason_inconsistent (wm : OrchestratorWorldModel)
    (po : Option (List String)) (syn q : String)
    (hq : wm.original_query = some q) (hplan : wm.plan = some [])
    (hsteps : wm.executed_steps = []) :
    orchReason wm po syn = (wm, .errorA "Orchestrator is in an inconsistent state.") := by
  unfold orchReason
  rw [hq, hplan, hsteps]
  rfl

theorem update_response (wm : OrchestratorWorldModel) (x : String)
    (rest : List String) (r : OMOPQueryResponse)
    (hplan : wm.plan = some (x :: rest)) :
    wm.update (.omop_agent_response r) =
      { wm with
        executed_steps := wm.executed_steps ++ [{ sub_question := x, result := r }],
        plan := some rest } := by
  unfold OrchestratorWorldModel.update
  rw [hplan]

/-- The canonical event order of a plan: each step is delegated, then its
result recorded, strictly in plan order. -/
def planEvents (plan : List String) : List OrchEvent :=
  plan.flatMap (fun s => [OrchEvent.delegated s, OrchEvent.recorded s])

theorem orchLoop_exec_phase : ∀ (fuel : Nat) (po : Option (List String))
    (d : String → Except String OMOPQueryResponse) (syn q : String)
    (pending : List String) (wm : OrchestratorWorldModel),
    wm.original_query = some q →
    wm.plan = some pending →
    (orchLoop po d syn fuel wm).2.2 <+: planEvents pending ∧
    (∀ pending', (orchLoop po d syn fuel wm).1.plan = some pending' →
      (orchLoop po d syn fuel wm).1.executed_steps.map OrchStep.sub_question
        ++ pending' =
      wm.executed_steps.map OrchStep.sub_question ++ pending) := by
  intro fuel
  induction fuel with
  | zero =>
    intro po d syn q pending wm hq hplan
    constructor
    · exact List.nil_prefix
    · intro pending' hp
      simp only [orchLoop] at hp ⊢
      rw [hplan] at hp
      injection hp with hp
      rw [hp]
  | succ fuel ih =>
    intro po d syn q pending wm hq hplan
    cases pending with
    | nil =>
      cases hsteps : wm.executed_steps with
      | nil =>
        have hr := orchReason_inconsistent wm po syn q hq hplan hsteps
        constructor
        · simp only [orchLoop, hr]
          exact List.nil_prefix
        · intro pending' hp
          simp only [orchLoop, hr] at hp ⊢
          rw [hplan] at hp
          injection hp with hp
          subst hp
          rw [hsteps]
      | cons s0 tl =>
        have hr := orchReason_final wm po syn q s0 tl hq hplan hsteps
        constructor
        · simp only [orchLoop, hr]
          exact List.nil_prefix
        · intro pending' hp
          simp only [orchLoop, hr] at hp ⊢
          rw [hplan] at hp
          injection hp with hp
          subst hp
          rw [hsteps]
    | cons x rest =>
      have hr := orchReason_delegate wm po syn q x rest hq hplan
      cases hd : d x with
      | error e =>
        constructor
        · simp only [orchLoop, hr, hd]
          exact ⟨OrchEvent.recorded x :: planEvents rest, by
            simp [planEvents, List.flatMap_cons]⟩
        · intro pending' hp
          simp only [orchLoop, hr, hd] at hp ⊢
          rw [hplan] at hp
          injection hp with hp
          rw [hp]
      | ok r =>
        have hupd := update_response wm x rest r hplan
        have ih' := ih po d syn q rest
          { wm with
            executed_steps := wm.executed_steps ++ [{ sub_question := x, result := r }],
            plan := some rest }
          hq rfl
        constructor
        · simp only [orchLoop, hr, hd, hupd, hplan]
          obtain ⟨t, ht⟩ := ih'.1
          refine ⟨t, ?_⟩
          rw [List.cons_append, List.cons_append, ht]
          simp [planEvents, List.flatMap_cons]
        · intro pending' hp
          simp only [orchLoop, hr, hd, hupd, hplan] at hp ⊢
          have h2 := ih'.2 pending' hp
          rw [h2]
          simp [List.map_append]

/-- C9: for every plan produced by the planner, sub-questions are executed
strictly in array order: the event trace of `process_query` is always a
prefix of `planEvents P` — each delegation of step `i+1` is preceded by the
recording of the result of step `i` — and whenever the loop stops, the recorded
steps followed by the still-pending plan reconstitute `P` exactly (a step
leaves the pending plan only when its result enters `executed_steps`). -/
theorem C9_plan_executed_in_order (q syn : String) (P : List String)
    (d : String → Except String OMOPQueryResponse) :
    (process_query q (some P) d syn).2.2 <+: planEvents P ∧
    (∀ pending', (process_query q (some P) d syn).1.plan = some pending' →
      (process_query q (some P) d syn).1.executed_steps.map OrchStep.sub_question
        ++ pending' = P) := by
  suffices h : ∀ fuel,
      (orchLoop (some P) d syn fuel
        { original_query := some q, plan := none, executed_steps := [] }).2.2
        <+: planEvents P ∧
      (∀ pending', (orchLoop (some P) d syn fuel
          { original_query := some q, plan := none, executed_steps := [] }).1.plan
          = some pending' →
        (orchLoop (some P) d syn fuel
          { original_query := some q, plan := none, executed_steps := [] }).1.executed_steps.map
            OrchStep.sub_question ++ pending' = P) by
    exact h max_loops
  intro fuel
  cases fuel with
  | zero =>
    constructor
    · exact List.nil_prefix
    · intro pending' hp
      simp only [orchLoop] at hp
      cases hp
  | succ fuel =>
    have hstep : orchLoop (some P) d syn (fuel + 1)
        { original_query := some q, plan := none, executed_steps := [] } =
      orchLoop (some P) d syn fuel
        { original_query := some q, plan := some P, executed_steps := [] } := rfl
    rw [hstep]
    have h := orchLoop_exec_phase fuel (some P) d syn q P
      { original_query := some q, plan := some P, executed_steps := [] } rfl rfl
    exact ⟨h.1, fun pending' hp => by
      have h2 := h.2 pending' hp
      simpa using h2⟩

/-- Witness for C9 at a concrete two-step plan. -/
theorem C9_witness :
    (process_query "Compare hypertension in males vs females"
        (some ["A", "B"])
        (fun _ => Except.ok { generated_sql := "SELECT 1", query_result := [] })
        "final summary").2.2 <+: planEvents ["A", "B"] ∧
    (process_query "Compare hypertension in males vs females"
        (some ["A", "B"])
        (fun _ => Except.ok { generated_sql := "SELECT 1", query_result := [] })
        "final summary").2.2 =
      [OrchEvent.delegated "A", OrchEvent.recorded "A",
       OrchEvent.delegated "B", OrchEvent.recorded "B"] ∧
    (process_query "Compare hypertension in males vs females"
        (some ["A", "B"])
        (fun _ => Except.ok { generated_sql := "SELECT 1", query_result := [] })
        "final summary").1.executed_steps.map OrchStep.sub_question ++ ([] : List String)
      = ["A", "B"] := by
  refine ⟨(C9_plan_executed_in_order "Compare hypertension in males vs females"
    "final summary" ["A", "B"]
    (fun _ => Except.ok { generated_sql := "SELECT 1", query_result := [] })).1, rfl, ?_⟩
  exact (C9_plan_executed_in_order "Compare hypertension in males vs females"
    "final summary" ["A", "B"]
    (fun _ => Except.ok { generated_sql := "SELECT 1", query_result := [] })).2 [] rfl

end MedA2A